import Mathlib

/-!
Shallow embedding of `GhostLab42Reboot.cpp`, the driver for GhostLab42's
Reboot dual-display board set (two IS31FL3730 LED drivers on one I2C bus).

The driver's only observable effect is the sequence of calls it makes to the
Arduino `Wire` (two-wire/I2C) transport: `Wire.beginTransmission(addr)`,
`Wire.write(byte)`, `Wire.endTransmission()`.  Each driver operation is
embedded as a pure function producing the list of those bus events, in order.
`Wire.begin()` (bus initialisation in `begin()`) emits no transaction events
and is modelled as producing no events.

Machine integers: C `int` is modelled as `Int`, C `byte`/`char` payloads as
`Nat` (all byte values written by this driver are small constants or results
of total functions into [0, 255], so no overflow arithmetic arises), and C
`char` input characters as `Char`.
-/

namespace GhostLab42

/-- One call to the Arduino `Wire` transport. -/
inductive WireEvent where
  | beginTransmission : Nat → WireEvent
  | writeByte : Nat → WireEvent
  | endTransmission : WireEvent
deriving DecidableEq

/-- `#define IS31FL3730_DIGIT_4_I2C_ADDRESS 0x63`. -/
def IS31FL3730_DIGIT_4_I2C_ADDRESS : Nat := 0x63

/-- `#define IS31FL3730_DIGIT_6_I2C_ADDRESS 0x60`. -/
def IS31FL3730_DIGIT_6_I2C_ADDRESS : Nat := 0x60

/-- `const byte IS31FL3730_Data_Registers = 0x01`. -/
def IS31FL3730_Data_Registers : Nat := 0x01

/-- `const byte IS31FL3730_Update_Column_Register = 0x0C`. -/
def IS31FL3730_Update_Column_Register : Nat := 0x0C

/-- `const byte IS31FL3730_Lighting_Effect_Register = 0x0D`. -/
def IS31FL3730_Lighting_Effect_Register : Nat := 0x0D

/-- `const byte IS31FL3730_PWM_Register = 0x19`. -/
def IS31FL3730_PWM_Register : Nat := 0x19

/-- `const byte IS31FL3730_Reset_Register = 0xFF`. -/
def IS31FL3730_Reset_Register : Nat := 0xFF

/-- The digit normalisation `if (digits != 4) digits = 6;` performed at the
top of `write` and `writeRandom`. -/
def normalizeDigits (digits : Int) : Int :=
  if digits ≠ 4 then 6 else digits

/-- `GhostLab42Reboot::setupWireTransmission`: opens a transmission to the
4-digit display's address when `digits == 4`, else to the 6-digit display's
address. -/
def setupWireTransmission (digits : Int) : List WireEvent :=
  if digits = 4 then
    [WireEvent.beginTransmission IS31FL3730_DIGIT_4_I2C_ADDRESS]
  else
    [WireEvent.beginTransmission IS31FL3730_DIGIT_6_I2C_ADDRESS]

/-- `GhostLab42Reboot::charToDisplayByte`: the if-chain mapping a character
to its gfedcba segment byte; every character other than a decimal digit
falls through to `return NULL;`, i.e. byte 0x00. -/
def charToDisplayByte (displayCharacter : Char) : Nat :=
  if displayCharacter = '0' then 0x3F
  else if displayCharacter = '1' then 0x06
  else if displayCharacter = '2' then 0x5B
  else if displayCharacter = '3' then 0x4F
  else if displayCharacter = '4' then 0x66
  else if displayCharacter = '5' then 0x6D
  else if displayCharacter = '6' then 0x7D
  else if displayCharacter = '7' then 0x07
  else if displayCharacter = '8' then 0x7F
  else if displayCharacter = '9' then 0x6F
  else 0x00

/-- `GhostLab42Reboot::write(int digits, char value[])`.

`value` is a C pointer into memory with no length attached; the loop
`for (int i = 0; i < digits; i++) Wire.write(charToDisplayByte(value[i]));`
dereferences `value[i]` for every `i` below the normalised digit count,
whatever the length of the array the caller actually supplied.  The memory
reachable through the pointer is therefore modelled as a total function
`value : Nat → Char`; which of those cells lie inside the caller's array is a
question about the call site, not about this function. -/
def write (digits : Int) (value : Nat → Char) : List WireEvent :=
  let d := normalizeDigits digits
  setupWireTransmission d
    ++ [WireEvent.writeByte IS31FL3730_Data_Registers]
    ++ (List.range d.toNat).map (fun i => WireEvent.writeByte (charToDisplayByte (value i)))
    ++ [WireEvent.endTransmission]
    ++ setupWireTransmission d
    ++ [WireEvent.writeByte IS31FL3730_Update_Column_Register,
        WireEvent.writeByte 0x00,
        WireEvent.endTransmission]

/-- Arduino `random(howsmall, howbig)`: returns a pseudo-random long in
[howsmall, howbig), i.e. `howbig` is exclusive.  Modelled, per the Arduino
core's documented contract, as `howsmall + r % (howbig - howsmall)` where `r`
is the draw of the underlying generator. -/
def arduinoRandom (howsmall howbig r : Nat) : Nat :=
  howsmall + r % (howbig - howsmall)

/-- Decimal representation of a natural number as Arduino `String(long)`
renders it: most significant digit first.  (For `n = 0` Arduino renders
a single zero character while `Nat.digits` gives the empty list; the driver
only applies this to values at least 100000, where the two agree.) -/
def decimalChars (n : Nat) : List Char :=
  ((Nat.digits 10 n).reverse).map (fun d => Char.ofNat (48 + d))

/-- `GhostLab42Reboot::getRandomString(int digits, char randomString[])`,
restricted to the in-bounds content of the destination buffer: the call
`String(random(100000, 999999)).toCharArray(randomString, digits + 1)`
copies `min(digits, len)` characters of the decimal string into indices
`0 .. min(digits, len) - 1` and then stores a terminating NUL.  This
definition gives the characters stored at indices below `digits`; the full
list of store indices, including the NUL store, is `getBytesStoreIndices`
below. -/
def getRandomString (digits : Int) (r : Nat) : Nat → Char :=
  fun i =>
    ((decimalChars (arduinoRandom 100000 999999 r)).take digits.toNat).getD i (Char.ofNat 0)

/-- `GhostLab42Reboot::writeRandom(int digits)`: normalises `digits`,
declares `char randomString[digits]`, fills it via `getRandomString`, then
delegates to `write`. -/
def writeRandom (digits : Int) (r : Nat) : List WireEvent :=
  let d := normalizeDigits digits
  write d (getRandomString d r)

/-- `GhostLab42Reboot::setDisplayPowerMin`: Lighting Effect Register write
of 0x08 (lowest level, 10 mA). -/
def setDisplayPowerMin (digits : Int) : List WireEvent :=
  setupWireTransmission digits
    ++ [WireEvent.writeByte IS31FL3730_Lighting_Effect_Register,
        WireEvent.writeByte 0x08,
        WireEvent.endTransmission]

/-- `GhostLab42Reboot::setDisplayPowerMax`: Lighting Effect Register write
of 0x0B (highest level allowed for these displays, 20 mA). -/
def setDisplayPowerMax (digits : Int) : List WireEvent :=
  setupWireTransmission digits
    ++ [WireEvent.writeByte IS31FL3730_Lighting_Effect_Register,
        WireEvent.writeByte 0x0B,
        WireEvent.endTransmission]

/-- `GhostLab42Reboot::begin()`: `Wire.begin()` (no transaction events),
then `setDisplayPowerMax(4)` and `setDisplayPowerMax(6)`. -/
def begin : List WireEvent :=
  setDisplayPowerMax 4 ++ setDisplayPowerMax 6

/-- `GhostLab42Reboot::resetDisplay(int digits)`: one transaction writing
the Reset Register index plus one ignored byte, then `setDisplayPowerMax`. -/
def resetDisplay (digits : Int) : List WireEvent :=
  setupWireTransmission digits
    ++ [WireEvent.writeByte IS31FL3730_Reset_Register,
        WireEvent.writeByte 0x00,
        WireEvent.endTransmission]
    ++ setDisplayPowerMax digits

/-- The PWM byte computed by `GhostLab42Reboot::setDisplayBrightness`.

The middle branch of the source computes
`float pwmPercent = ((float)brightness / 100) * 128; PWM = pwmPercent;`
and the float-to-byte conversion truncates toward zero.  For brightness in
[1, 99] this equals `32 * brightness / 25` in integer (floor) division:
`brightness / 100` rounds to the nearest IEEE single (error at most 2^-25),
the multiplication by 128 is exact (a power of two, no overflow), so the
float result differs from the rational `32 * brightness / 25` by less than
128 * 2^-25 < 4e-6; that rational is either exactly an integer (brightness a
multiple of 25, where `brightness / 100` is also exactly representable and
the float result is exact) or at least 1/25 away from every integer, so
truncation agrees with the exact floor.  The source's final clamp
`if (PWM > 0x80) PWM = 0x80;` is kept; its `else if (PWM < 0x00)` branch is
unreachable for an unsigned byte and is omitted. -/
def brightnessPWM (brightness : Int) : Nat :=
  if brightness ≤ 0 then 0x00
  else if 100 ≤ brightness then 0x80
  else
    let pwm := 32 * brightness.toNat / 25
    if 0x80 < pwm then 0x80 else pwm

/-- `GhostLab42Reboot::setDisplayBrightness(int digits, int brightness)`:
one transaction writing the PWM Register index and the converted byte. -/
def setDisplayBrightness (digits brightness : Int) : List WireEvent :=
  setupWireTransmission digits
    ++ [WireEvent.writeByte IS31FL3730_PWM_Register,
        WireEvent.writeByte (brightnessPWM brightness),
        WireEvent.endTransmission]

/-- Indices of the byte stores performed by Arduino
`String::getBytes(buf, bufsize)` (which `toCharArray` forwards to) for a
source string of length `len`, starting at string index 0: nothing when
`bufsize == 0`; a single NUL store at index 0 when the string is empty;
otherwise `n = min(bufsize - 1, len)` character stores at indices
`0 .. n - 1` followed by the terminating NUL store at index `n`. -/
def getBytesStoreIndices (len bufsize : Nat) : List Nat :=
  if bufsize = 0 then []
  else if len = 0 then [0]
  else List.range (min (bufsize - 1) len) ++ [min (bufsize - 1) len]

/-- The buffer indices stored to during `writeRandom(digits)`: the source
declares `char randomString[digits]` (after normalisation) and calls
`toCharArray(randomString, digits + 1)` on the decimal string of the random
draw. -/
def writeRandomStoreIndices (digits : Int) (r : Nat) : List Nat :=
  getBytesStoreIndices (decimalChars (arduinoRandom 100000 999999 r)).length
    ((normalizeDigits digits).toNat + 1)

/-- Split a flat event trace into completed transactions: a
`beginTransmission` opens a fresh transaction, `writeByte` appends to the
open one, `endTransmission` completes it.  First argument is the open
transaction, second the completed ones so far. -/
def transAux : Option (Nat × List Nat) → List (Nat × List Nat) → List WireEvent →
    List (Nat × List Nat)
  | _, acc, [] => acc
  | _, acc, WireEvent.beginTransmission a :: es => transAux (some (a, [])) acc es
  | some (a, bs), acc, WireEvent.writeByte b :: es => transAux (some (a, bs ++ [b])) acc es
  | none, acc, WireEvent.writeByte _ :: es => transAux none acc es
  | some t, acc, WireEvent.endTransmission :: es => transAux none (acc ++ [t]) es
  | none, acc, WireEvent.endTransmission :: es => transAux none acc es

/-- The completed transactions of a trace, in order: device address paired
with the bytes written (first byte is the register index). -/
def transactions (es : List WireEvent) : List (Nat × List Nat) :=
  transAux none [] es

/-- The device addresses of the completed transactions of a trace. -/
def txnAddrs (es : List WireEvent) : List Nat :=
  (transactions es).map Prod.fst

/-- Register-level meaning of one transaction on the IS31FL3730: the first
byte selects a register index, each subsequent data byte lands in the next
sequential register.  Yields (register, value) pairs. -/
def regWritesFrom (reg : Nat) : List Nat → List (Nat × Nat)
  | [] => []
  | b :: rest => (reg, b) :: regWritesFrom (reg + 1) rest

/-- Register writes of one transaction: none when no byte follows the
address, else the payload laid out from the leading register index. -/
def regWrites : Nat × List Nat → List (Nat × Nat)
  | (_, []) => []
  | (_, b0 :: rest) => regWritesFrom b0 rest

/-- Every operation the driver can perform (the public surface plus the two
private current-limit writes). -/
inductive Operation where
  | opBegin : Operation
  | opWrite : Int → (Nat → Char) → Operation
  | opWriteRandom : Int → Nat → Operation
  | opResetDisplay : Int → Operation
  | opSetDisplayBrightness : Int → Int → Operation
  | opSetDisplayPowerMin : Int → Operation
  | opSetDisplayPowerMax : Int → Operation

/-- The bus trace of one operation. -/
def opTrace : Operation → List WireEvent
  | Operation.opBegin => begin
  | Operation.opWrite digits value => write digits value
  | Operation.opWriteRandom digits r => writeRandom digits r
  | Operation.opResetDisplay digits => resetDisplay digits
  | Operation.opSetDisplayBrightness digits brightness => setDisplayBrightness digits brightness
  | Operation.opSetDisplayPowerMin digits => setDisplayPowerMin digits
  | Operation.opSetDisplayPowerMax digits => setDisplayPowerMax digits

/-- All register writes performed by one operation, in order. -/
def opRegisterWrites (op : Operation) : List (Nat × Nat) :=
  (transactions (opTrace op)).flatMap regWrites

/-! ## General lemmas about the embedding -/

/-- Arduino `random(100000, 999999)` yields a value in [100000, 999998]
(the upper bound of `random` is exclusive). -/
theorem rand_bounds (r : Nat) :
    100000 ≤ arduinoRandom 100000 999999 r ∧ arduinoRandom 100000 999999 r ≤ 999998 := by
  unfold arduinoRandom
  have h : r % (999999 - 100000) < 899999 := Nat.mod_lt r (by norm_num)
  omega

/-- The decimal string of the random draw always has exactly 6 characters. -/
theorem rand_decimal_length (r : Nat) :
    (decimalChars (arduinoRandom 100000 999999 r)).length = 6 := by
  obtain ⟨h1, h2⟩ := rand_bounds r
  unfold decimalChars
  rw [List.length_map, List.length_reverse]
  rw [Nat.digits_len 10 _ (by norm_num) (by omega)]
  have hlog : Nat.log 10 (arduinoRandom 100000 999999 r) = 5 :=
    Nat.log_eq_of_pow_le_of_lt_pow (by norm_num; omega) (by norm_num; omega)
  omega

/-- Running the transaction splitter over the write phase of a transaction:
the pending bytes are extended and the transaction completes at the closing
`endTransmission`. -/
theorem transAux_run (a : Nat) (bs ws : List Nat) (acc : List (Nat × List Nat))
    (rest : List WireEvent) :
    transAux (some (a, bs)) acc (ws.map WireEvent.writeByte ++ WireEvent.endTransmission :: rest)
      = transAux none (acc ++ [(a, bs ++ ws)]) rest := by
  induction ws generalizing bs with
  | nil => simp [transAux]
  | cons w ws ih =>
      simp only [List.map_cons, List.cons_append, transAux, List.append_eq]
      rw [ih]
      simp

/-- One complete well-formed transaction at the head of a trace. -/
theorem transAux_txn (a : Nat) (ws : List Nat) (acc : List (Nat × List Nat))
    (rest : List WireEvent) :
    transAux none acc
        (WireEvent.beginTransmission a ::
          (ws.map WireEvent.writeByte ++ WireEvent.endTransmission :: rest))
      = transAux none (acc ++ [(a, ws)]) rest := by
  have h := transAux_run a [] ws acc rest
  simpa [transAux] using h

/-- A caller-supplied digit count other than 4 normalises to 6. -/
theorem normalizeDigits_ne (digits : Int) (h : digits ≠ 4) : normalizeDigits digits = 6 := by
  simp [normalizeDigits, h]

/-- The two transactions emitted by `write`: the data stage writes the Data
Registers index followed by one encoded byte per normalised digit position,
the commit stage writes the Update Column Register index and one byte. -/
theorem write_transactions (digits : Int) (value : Nat → Char) :
    transactions (write digits value)
      = [((if digits = 4 then 0x63 else 0x60),
          0x01 :: (List.range (if digits = 4 then 4 else 6)).map
              (fun i => charToDisplayByte (value i))),
         ((if digits = 4 then 0x63 else 0x60), [0x0C, 0x00])] := by
  by_cases h : digits = 4
  · subst h
    rfl
  · have hn : normalizeDigits digits = 6 := normalizeDigits_ne digits h
    simp only [write, hn, if_neg h]
    rfl

/-- The full event trace of `write`: the data-stage transaction, closed by
`endTransmission`, strictly precedes the commit transaction. -/
theorem write_events (digits : Int) (value : Nat → Char) :
    write digits value
      = ([WireEvent.beginTransmission (if digits = 4 then 0x63 else 0x60),
          WireEvent.writeByte 0x01]
          ++ ((List.range (if digits = 4 then 4 else 6)).map
                (fun i => WireEvent.writeByte (charToDisplayByte (value i))))
          ++ [WireEvent.endTransmission])
        ++ [WireEvent.beginTransmission (if digits = 4 then 0x63 else 0x60),
            WireEvent.writeByte 0x0C, WireEvent.writeByte 0x00, WireEvent.endTransmission] := by
  by_cases h : digits = 4
  · subst h
    rfl
  · have hn : normalizeDigits digits = 6 := normalizeDigits_ne digits h
    simp only [write, hn, if_neg h]
    rfl

theorem setDisplayPowerMax_transactions (digits : Int) :
    transactions (setDisplayPowerMax digits)
      = [((if digits = 4 then 0x63 else 0x60), [0x0D, 0x0B])] := by
  by_cases h : digits = 4
  · subst h; rfl
  · simp only [setDisplayPowerMax, setupWireTransmission, if_neg h]
    rfl

theorem setDisplayPowerMin_transactions (digits : Int) :
    transactions (setDisplayPowerMin digits)
      = [((if digits = 4 then 0x63 else 0x60), [0x0D, 0x08])] := by
  by_cases h : digits = 4
  · subst h; rfl
  · simp only [setDisplayPowerMin, setupWireTransmission, if_neg h]
    rfl

theorem resetDisplay_events (digits : Int) :
    resetDisplay digits
      = [WireEvent.beginTransmission (if digits = 4 then 0x63 else 0x60),
         WireEvent.writeByte 0xFF, WireEvent.writeByte 0x00, WireEvent.endTransmission,
         WireEvent.beginTransmission (if digits = 4 then 0x63 else 0x60),
         WireEvent.writeByte 0x0D, WireEvent.writeByte 0x0B, WireEvent.endTransmission] := by
  by_cases h : digits = 4
  · subst h; rfl
  · simp only [resetDisplay, setDisplayPowerMax, setupWireTransmission, if_neg h]
    rfl

theorem resetDisplay_transactions (digits : Int) :
    transactions (resetDisplay digits)
      = [((if digits = 4 then 0x63 else 0x60), [0xFF, 0x00]),
         ((if digits = 4 then 0x63 else 0x60), [0x0D, 0x0B])] := by
  by_cases h : digits = 4
  · subst h; rfl
  · simp only [resetDisplay, setDisplayPowerMax, setupWireTransmission, if_neg h]
    rfl

theorem setDisplayBrightness_transactions (digits brightness : Int) :
    transactions (setDisplayBrightness digits brightness)
      = [((if digits = 4 then 0x63 else 0x60), [0x19, brightnessPWM brightness])] := by
  by_cases h : digits = 4 <;>
    simp [setDisplayBrightness, setupWireTransmission, h, transactions, transAux,
      IS31FL3730_PWM_Register, IS31FL3730_DIGIT_4_I2C_ADDRESS, IS31FL3730_DIGIT_6_I2C_ADDRESS]

theorem brightnessPWM_mid (brightness : Int) (h0 : 0 < brightness) (h1 : brightness < 100) :
    brightnessPWM brightness = 32 * brightness.toNat / 25 ∧ 32 * brightness.toNat / 25 ≤ 126 := by
  have ht : brightness.toNat ≤ 99 := by omega
  have hle : 32 * brightness.toNat / 25 ≤ 126 := by
    have h32 : 32 * brightness.toNat ≤ 3168 := by omega
    calc 32 * brightness.toNat / 25 ≤ 3168 / 25 := Nat.div_le_div_right h32
    _ = 126 := by norm_num
  refine ⟨?_, hle⟩
  simp only [brightnessPWM]
  rw [if_neg (by omega : ¬ brightness ≤ 0), if_neg (by omega : ¬ (100:Int) ≤ brightness)]
  have hno : ¬ (0x80 < 32 * brightness.toNat / 25) := by omega
  simp [hno]

theorem writeRandom_transactions (digits : Int) (r : Nat) :
    transactions (writeRandom digits r)
      = [((if digits = 4 then 0x63 else 0x60),
          0x01 :: (List.range (if digits = 4 then 4 else 6)).map
              (fun i => charToDisplayByte (getRandomString (normalizeDigits digits) r i))),
         ((if digits = 4 then 0x63 else 0x60), [0x0C, 0x00])] := by
  unfold writeRandom
  rw [write_transactions]
  by_cases h : digits = 4
  · subst h; rfl
  · rw [normalizeDigits_ne digits h]
    simp [h]

/-- Register indices produced by a payload laid out from `reg` stay in
`[reg, reg + length)`. -/
theorem regWritesFrom_indices (reg : Nat) (bs : List Nat) :
    ∀ rv ∈ regWritesFrom reg bs, reg ≤ rv.1 ∧ rv.1 < reg + bs.length := by
  induction bs generalizing reg with
  | nil => intro rv hrv; simp [regWritesFrom] at hrv
  | cons b bs ih =>
      intro rv hrv
      simp only [regWritesFrom, List.mem_cons] at hrv
      rcases hrv with h | h
      · subst h; simp
      · have := ih (reg + 1) rv h
        simp [List.length_cons]
        omega

/-- No register write of a `write` operation touches the Lighting Effect
Register: the data stage lands in registers 0x01..0x06 and the commit stage
in 0x0C. -/
theorem write_lighting_safe (digits : Int) (value : Nat → Char) :
    ∀ rv ∈ (transactions (write digits value)).flatMap regWrites, rv.1 ≠ 0x0D := by
  intro rv hrv
  rw [write_transactions] at hrv
  simp only [List.flatMap_cons, List.flatMap_nil, List.append_nil, List.mem_append] at hrv
  rcases hrv with hrv | hrv
  · simp only [regWrites] at hrv
    have hb := regWritesFrom_indices 1 _ rv hrv
    rw [List.length_map, List.length_range] at hb
    have h6 : rv.1 ≤ 6 := by
      by_cases h4 : digits = 4 <;> simp [h4] at hb <;> omega
    omega
  · simp [regWrites, regWritesFrom] at hrv
    subst hrv; decide


/-- Claim C1: every payload byte the driver ever lays into the Lighting
Effect (current limit) register 0x0D is 0x08 (Min) or 0x0B (Max) — the
chip's unsafe power-on default level is never written — and both code paths
that leave the chip in default state issue a forced Max write before
returning: `begin` ends with Max writes to both display addresses, and the
last transaction of `resetDisplay` is the Max current-limit write. -/
theorem C1_current_limit_policy :
    (∀ op : Operation, ∀ rv ∈ opRegisterWrites op,
        rv.1 = IS31FL3730_Lighting_Effect_Register → rv.2 = 0x08 ∨ rv.2 = 0x0B)
    ∧ transactions begin
        = [(IS31FL3730_DIGIT_4_I2C_ADDRESS, [0x0D, 0x0B]),
           (IS31FL3730_DIGIT_6_I2C_ADDRESS, [0x0D, 0x0B])]
    ∧ ∀ digits : Int,
        (transactions (resetDisplay digits)).getLast?
          = some ((if digits = 4 then 0x63 else 0x60), [0x0D, 0x0B]) := by
  refine ⟨?_, by decide, ?_⟩
  · intro op rv hrv hreg
    simp only [IS31FL3730_Lighting_Effect_Register] at hreg
    cases op with
    | opBegin =>
        rw [show opRegisterWrites Operation.opBegin = [(0x0D, 0x0B), (0x0D, 0x0B)] from by decide]
          at hrv
        simp at hrv
        subst hrv
        exact Or.inr rfl
    | opWrite digits value =>
        have := write_lighting_safe digits value rv hrv
        exact absurd hreg this
    | opWriteRandom digits r =>
        have := write_lighting_safe (normalizeDigits digits)
          (getRandomString (normalizeDigits digits) r) rv hrv
        exact absurd hreg this
    | opResetDisplay digits =>
        simp only [opRegisterWrites, opTrace] at hrv
        rw [resetDisplay_transactions] at hrv
        simp [regWrites, regWritesFrom] at hrv
        rcases hrv with h | h <;> subst h
        · exact absurd hreg (by decide)
        · exact Or.inr rfl
    | opSetDisplayBrightness digits brightness =>
        simp only [opRegisterWrites, opTrace] at hrv
        rw [setDisplayBrightness_transactions] at hrv
        simp [regWrites, regWritesFrom] at hrv
        subst hrv
        exact absurd hreg (by simp)
    | opSetDisplayPowerMin digits =>
        simp only [opRegisterWrites, opTrace] at hrv
        rw [setDisplayPowerMin_transactions] at hrv
        simp [regWrites, regWritesFrom] at hrv
        subst hrv
        exact Or.inl rfl
    | opSetDisplayPowerMax digits =>
        simp only [opRegisterWrites, opTrace] at hrv
        rw [setDisplayPowerMax_transactions] at hrv
        simp [regWrites, regWritesFrom] at hrv
        subst hrv
        exact Or.inr rfl
  · intro digits
    rw [resetDisplay_transactions]
    rfl

/-- Witness for C1 at the reset operation on the 4-digit display and its
forced Max register write. -/
theorem C1_current_limit_policy_witness :
    ((0x0B : Nat) = 0x08 ∨ (0x0B : Nat) = 0x0B) :=
  C1_current_limit_policy.1 (Operation.opResetDisplay 4) (0x0D, 0x0B) (by decide) (by decide)

/-- Modelled from the spec: the PWM byte the spec prescribes for
`setDisplayBrightness` — `round(percent / 100 * 128)`, re-clamped to
[0, 128] after rounding, with 128 written as the distinguished full value
0x80.  For percent in (0, 100) the rational `32 * percent / 25` is never
half-integral (25 is odd), so round-to-nearest is `(64 * percent + 25) / 50`
in integer division; the clamp is `min 128`. -/
def specBrightnessPWM (brightness : Int) : Nat :=
  if brightness ≤ 0 then 0x00
  else if 100 ≤ brightness then 0x80
  else min 128 ((64 * brightness.toNat + 25) / 50)

/-- Memory as seen through the `value` pointer when a caller passes the
3-byte C string "42": indices 0..2 hold '4', '2', NUL, and here every cell
beyond the supplied array also happens to hold NUL. -/
def mem42Blank : Nat → Char := fun i =>
  if i = 0 then '4' else if i = 1 then '2' else Char.ofNat 0

/-- The same supplied 3-byte string "42", but the out-of-bounds memory one
past the terminator holds the digit character '8'. -/
def mem42Dirty : Nat → Char := fun i =>
  if i = 0 then '4' else if i = 1 then '2' else if i = 2 then Char.ofNat 0 else '8'

/-- Claim C2: for every display selector, `resetDisplay` emits exactly two
bus transactions in this order — first the Reset register index 0xFF plus
one payload byte, then the Lighting Effect register index 0x0D plus the
payload byte 0x0B — never reordered, the second never omitted. -/
theorem C2_reset_sequence (digits : Int) :
    resetDisplay digits
      = [WireEvent.beginTransmission (if digits = 4 then 0x63 else 0x60),
         WireEvent.writeByte IS31FL3730_Reset_Register, WireEvent.writeByte 0x00,
         WireEvent.endTransmission,
         WireEvent.beginTransmission (if digits = 4 then 0x63 else 0x60),
         WireEvent.writeByte IS31FL3730_Lighting_Effect_Register, WireEvent.writeByte 0x0B,
         WireEvent.endTransmission]
    ∧ transactions (resetDisplay digits)
      = [((if digits = 4 then 0x63 else 0x60), [IS31FL3730_Reset_Register, 0x00]),
         ((if digits = 4 then 0x63 else 0x60), [IS31FL3730_Lighting_Effect_Register, 0x0B])] :=
  ⟨resetDisplay_events digits, resetDisplay_transactions digits⟩

/-- Claim C3 is refuted by the code: `write(4, "42")` reads `value[3]`,
one cell past the supplied 3-byte array "42".  Two memories that agree on
the whole supplied array (indices 0..2) but differ at the out-of-bounds
cell 3 produce different traces, and when that cell holds '8' the fourth
data byte is 0x7F, not the blank 0x00 the claim requires. -/
theorem C3_overread :
    mem42Blank 0 = mem42Dirty 0 ∧ mem42Blank 1 = mem42Dirty 1 ∧ mem42Blank 2 = mem42Dirty 2
    ∧ transactions (write 4 mem42Dirty)
        = [(0x63, [0x01, 0x66, 0x5B, 0x00, 0x7F]), (0x63, [0x0C, 0x00])]
    ∧ write 4 mem42Blank ≠ write 4 mem42Dirty := by decide

/-- Counterexample to claim C4 as stated: at brightness 2 the code writes
PWM byte 0x02 (float truncation of 2.56), while the spec formula
`round(percent / 100 * 128)` gives 3. -/
theorem C4_round_refuted :
    transactions (setDisplayBrightness 6 2) = [(0x60, [0x19, 0x02])]
    ∧ specBrightnessPWM 2 = 3
    ∧ (0x02 : Nat) ≠ 3 := by decide

/-- Claim C4 as amended: `setDisplayBrightness` writes exactly one PWM
payload byte — 0x00 for percent ≤ 0, 0x80 for percent ≥ 100, and for
percent strictly between 0 and 100 the byte is the float truncation
`floor(percent / 100 * 128) = 32 * percent / 25`, which always lies in
[1, 126], so the post-conversion clamp to at most 0x80 never fires. -/
theorem C4_truncation (digits brightness : Int) :
    transactions (setDisplayBrightness digits brightness)
      = [((if digits = 4 then 0x63 else 0x60),
          [IS31FL3730_PWM_Register,
           if brightness ≤ 0 then 0x00
           else if 100 ≤ brightness then 0x80
           else 32 * brightness.toNat / 25])]
    ∧ (0 < brightness → brightness < 100 →
        brightnessPWM brightness = 32 * brightness.toNat / 25
        ∧ 32 * brightness.toNat / 25 ≤ 126) := by
  constructor
  · rw [setDisplayBrightness_transactions]
    by_cases h0 : brightness ≤ 0
    · simp [brightnessPWM, h0, IS31FL3730_PWM_Register]
    · by_cases h1 : (100:Int) ≤ brightness
      · simp [brightnessPWM, h0, h1, IS31FL3730_PWM_Register]
      · obtain ⟨he, _⟩ := brightnessPWM_mid brightness (by omega) (by omega)
        simp [he, h0, h1, IS31FL3730_PWM_Register]
  · intro hp hq
    exact brightnessPWM_mid brightness hp hq

/-- Witness for C4 at digits 6, brightness 50: the PWM byte is 64. -/
theorem C4_truncation_witness :
    transactions (setDisplayBrightness 6 50)
      = [((if (6:Int) = 4 then 0x63 else 0x60),
          [IS31FL3730_PWM_Register,
           if (50:Int) ≤ 0 then 0x00
           else if 100 ≤ (50:Int) then 0x80
           else 32 * (50:Int).toNat / 25])]
    ∧ (brightnessPWM 50 = 32 * (50:Int).toNat / 25 ∧ 32 * (50:Int).toNat / 25 ≤ 126) :=
  ⟨(C4_truncation 6 50).1, (C4_truncation 6 50).2 (by decide) (by decide)⟩

/-- Claim C5: `charToDisplayByte` is total and pure; on '0'..'9' it returns
the fixed segment table and on every other character it returns 0x00. -/
theorem C5_encoder_table :
    (charToDisplayByte '0' = 0x3F ∧ charToDisplayByte '1' = 0x06
      ∧ charToDisplayByte '2' = 0x5B ∧ charToDisplayByte '3' = 0x4F
      ∧ charToDisplayByte '4' = 0x66 ∧ charToDisplayByte '5' = 0x6D
      ∧ charToDisplayByte '6' = 0x7D ∧ charToDisplayByte '7' = 0x07
      ∧ charToDisplayByte '8' = 0x7F ∧ charToDisplayByte '9' = 0x6F)
    ∧ ∀ c : Char, c ∉ ['0', '1', '2', '3', '4', '5', '6', '7', '8', '9'] →
        charToDisplayByte c = 0x00 := by
  refine ⟨by decide, ?_⟩
  intro c hc
  simp only [List.mem_cons, List.not_mem_nil, or_false, not_or] at hc
  obtain ⟨h0, h1, h2, h3, h4, h5, h6, h7, h8, h9⟩ := hc
  simp [charToDisplayByte, h0, h1, h2, h3, h4, h5, h6, h7, h8, h9]

/-- Witness for C5 at the non-digit character 'A'. -/
theorem C5_encoder_table_witness :
    'A' ∉ ['0', '1', '2', '3', '4', '5', '6', '7', '8', '9'] ∧ charToDisplayByte 'A' = 0x00 :=
  ⟨by decide, C5_encoder_table.2 'A' (by decide)⟩

/-- Claim C6: within every `write`, the data-stage transaction (address,
Data Registers index, payload, close) fully completes before the commit
transaction opens, and the commit transaction writes the Update Column
Register index followed by exactly one payload byte; the trace splits into
the two transactions and is never fused into one. -/
theorem C6_two_phase (digits : Int) (value : Nat → Char) :
    ∃ payload : List Nat,
      payload.length = (if digits = 4 then 4 else 6)
      ∧ write digits value
          = ([WireEvent.beginTransmission (if digits = 4 then 0x63 else 0x60),
              WireEvent.writeByte IS31FL3730_Data_Registers]
              ++ payload.map WireEvent.writeByte
              ++ [WireEvent.endTransmission])
            ++ [WireEvent.beginTransmission (if digits = 4 then 0x63 else 0x60),
                WireEvent.writeByte IS31FL3730_Update_Column_Register,
                WireEvent.writeByte 0x00, WireEvent.endTransmission]
      ∧ transactions (write digits value)
          = [((if digits = 4 then 0x63 else 0x60), IS31FL3730_Data_Registers :: payload),
             ((if digits = 4 then 0x63 else 0x60), [IS31FL3730_Update_Column_Register, 0x00])] := by
  refine ⟨(List.range (if digits = 4 then 4 else 6)).map (fun i => charToDisplayByte (value i)),
    by simp, ?_, ?_⟩
  · rw [write_events]
    simp [List.map_map, Function.comp, IS31FL3730_Data_Registers,
      IS31FL3730_Update_Column_Register]
  · rw [write_transactions]
    rfl

/-- Claim C7: every public operation resolves the display identity from the
digit count — 4 selects bus address 0x63 with 4 data positions, every other
value selects 0x60 with 6 data positions. -/
theorem C7_identity_resolution (digits brightness : Int) (value : Nat → Char) (r : Nat) :
    txnAddrs (write digits value)
        = [(if digits = 4 then 0x63 else 0x60), (if digits = 4 then 0x63 else 0x60)]
    ∧ txnAddrs (writeRandom digits r)
        = [(if digits = 4 then 0x63 else 0x60), (if digits = 4 then 0x63 else 0x60)]
    ∧ txnAddrs (resetDisplay digits)
        = [(if digits = 4 then 0x63 else 0x60), (if digits = 4 then 0x63 else 0x60)]
    ∧ txnAddrs (setDisplayBrightness digits brightness) = [(if digits = 4 then 0x63 else 0x60)]
    ∧ (∃ payload : List Nat,
        payload.length = (if digits = 4 then 4 else 6)
        ∧ transactions (write digits value)
            = [((if digits = 4 then 0x63 else 0x60), IS31FL3730_Data_Registers :: payload),
               ((if digits = 4 then 0x63 else 0x60),
                [IS31FL3730_Update_Column_Register, 0x00])]) := by
  refine ⟨?_, ?_, ?_, ?_, ?_⟩
  · unfold txnAddrs; rw [write_transactions]; rfl
  · unfold txnAddrs; rw [writeRandom_transactions]; rfl
  · unfold txnAddrs; rw [resetDisplay_transactions]; rfl
  · unfold txnAddrs; rw [setDisplayBrightness_transactions]; rfl
  · exact ⟨(List.range (if digits = 4 then 4 else 6)).map (fun i => charToDisplayByte (value i)),
      by simp, write_transactions digits value⟩

/-- Claim C8: `begin()` (the facade's initialisation) issues the Max
current-limit write 0x0B to both display addresses, and its trace contains
no other current-limit write that could precede them. -/
theorem C8_begin_forces_max :
    begin = [WireEvent.beginTransmission IS31FL3730_DIGIT_4_I2C_ADDRESS,
             WireEvent.writeByte IS31FL3730_Lighting_Effect_Register, WireEvent.writeByte 0x0B,
             WireEvent.endTransmission,
             WireEvent.beginTransmission IS31FL3730_DIGIT_6_I2C_ADDRESS,
             WireEvent.writeByte IS31FL3730_Lighting_Effect_Register, WireEvent.writeByte 0x0B,
             WireEvent.endTransmission]
    ∧ transactions begin
        = [(IS31FL3730_DIGIT_4_I2C_ADDRESS, [IS31FL3730_Lighting_Effect_Register, 0x0B]),
           (IS31FL3730_DIGIT_6_I2C_ADDRESS, [IS31FL3730_Lighting_Effect_Register, 0x0B])] := by
  decide

/-- Claim C9: the integer obtained from `random(100000, 999999)` inside
`writeRandom` lies in the closed interval [100000, 999999] and its decimal
representation always has exactly 6 digits. -/
theorem C9_random_six_digits (r : Nat) :
    100000 ≤ arduinoRandom 100000 999999 r
    ∧ arduinoRandom 100000 999999 r ≤ 999999
    ∧ (decimalChars (arduinoRandom 100000 999999 r)).length = 6 := by
  obtain ⟨h1, h2⟩ := rand_bounds r
  exact ⟨h1, by omega, rand_decimal_length r⟩

/-- Claim C10 is refuted by the code: in `writeRandom(digits)` the
terminating NUL stored by `toCharArray(randomString, digits + 1)` always
lands at index `digits` of the stack buffer `char randomString[digits]` —
one past the end — for every digit count and every random draw; at the
failing input `writeRandom(4)` the store indices are [0, 1, 2, 3, 4]. -/
theorem C10_buffer_overflow :
    (∀ (digits : Int) (r : Nat),
        (normalizeDigits digits).toNat ∈ writeRandomStoreIndices digits r)
    ∧ 4 ∈ writeRandomStoreIndices 4 0
    ∧ ¬ (4 < (normalizeDigits 4).toNat)
    ∧ writeRandomStoreIndices 4 0 = [0, 1, 2, 3, 4] := by
  have hgen : ∀ (digits : Int) (r : Nat),
      (normalizeDigits digits).toNat ∈ writeRandomStoreIndices digits r := by
    intro digits r
    unfold writeRandomStoreIndices
    rw [rand_decimal_length]
    by_cases h : digits = 4
    · subst h; decide
    · rw [normalizeDigits_ne digits h]; decide
  refine ⟨hgen, ?_, by decide, ?_⟩
  · have h := hgen 4 0
    simpa using h
  · unfold writeRandomStoreIndices
    rw [rand_decimal_length]
    decide

end GhostLab42
